import Mathlib

/-!
Shallow embedding of `@celeri/request-logger` (`src/index.ts`): the template
compiler / token-substitution engine (`compileTemplate`), the duration
formatter (`formatDuration`), and the per-request lifecycle wiring
(`requestLogger`).  JavaScript strings are Lean `String`s, JS numbers that
hold integers are `Nat`, JS `undefined` is `Option.none`, and a thrown
exception is `Except.error`.
-/

set_option autoImplicit false

/-- A snapshot of the request object: the fields the source reads
(`req.method`, `req.pathname`, `req.connection.encrypted`). -/
structure Request where
  method : String
  pathname : String
  encrypted : Bool

/-- A snapshot of the response object: the fields the source reads
(`res.statusCode`, `res.getHeader(name)`).  Headers are an association list;
`getHeader` of an unset header is `none` (JS `undefined`). -/
structure Response where
  statusCode : Nat
  headers : List (String × String)

/-- `res.getHeader(name)`: first matching header value, or `undefined`. -/
def getHeader (res : Response) (name : String) : Option String :=
  (res.headers.find? (fun p => p.1 == name)).map (fun p => p.2)

/-- The type of a custom token resolver
(`(req, res, duration, finished) => string`). -/
abbrev Resolver : Type :=
  Request → Response → String → Bool → String

/-- The `customTokens` map.  `Object.keys` enumerates string keys in
insertion order, so a list of pairs models it; an absent map is `[]`. -/
abbrev CustomTokens : Type :=
  List (String × Resolver)

/-- `const standardTokens = [ 'status-code', 'duration', 'proto', 'method',
'path', 'content-type', 'content-length' ]` from the source. -/
def standardTokens : List String :=
  ["status-code", "duration", "proto", "method", "path", "content-type", "content-length"]

/-- One attempted match of the split regex `(:(${tokens.join('|')}))` at the
head of the remaining character list: a `:` followed by a registered name.
JS regex alternation is ordered, so the first name in the list whose text is
a prefix of the rest wins. -/
def findTok (names : List String) : List Char → Option String
  | [] => none
  | c :: rest => if c = ':' then names.find? (fun n => n.data.isPrefixOf rest) else none

/-- `template.split(tokensRegex)` for the regex `(:(${tokens.join('|')}))g`
with its two capture groups: the result alternates
`literal, ":name", name, literal, ":name", name, …, literal`.
Fuel is `length + 1`, enough for the scan, which consumes at least one
character per step; the fuel-0 fallback never fires. -/
def splitGo (names : List String) : Nat → List Char → List Char → List String
  | 0, cs, acc => [String.mk (acc.reverse ++ cs)]
  | _ + 1, [], acc => [String.mk acc.reverse]
  | fuel + 1, c :: rest, acc =>
    match findTok names (c :: rest) with
    | some n =>
      String.mk acc.reverse :: (":" ++ n) :: n :: splitGo names fuel (rest.drop n.data.length) []
    | none => splitGo names fuel rest (c :: acc)

/-- `template.split(new RegExp(`(:(${tokens.join('|')}))`, 'g'))`. -/
def splitTemplate (names : List String) (s : String) : List String :=
  splitGo names (s.data.length + 1) s.data []

/-- The compile loop of `compileTemplate`, walking `initialSplit`:

```js
for (let i = 0; i < initialSplit.length; i++) {
  templateChunks.push(initialSplit[i += 2]);
  if (initialSplit[i]) { tokenList.push(initialSplit[i]); }
}
```

`i += 2` evaluates to the incremented index, so each iteration pushes
`initialSplit[i+2]` (an out-of-range read is `undefined`, i.e. `none`) into
`templateChunks`, pushes the same element into `tokenList` when it is truthy
(defined and non-empty), and then advances by 3.  On a suffix view the loop
is: consume three elements, record the third. -/
def walkSplit : List String → List (Option String) × List String
  | [] => ([], [])
  | [_] => ([none], [])
  | [_, _] => ([none], [])
  | _ :: _ :: c :: rest =>
    let p := walkSplit rest
    (some c :: p.1, if c = "" then p.2 else c :: p.2)

/-- `compileTemplate`'s compile-time phase: the recognized-name list is the
standard tokens followed by the custom-token names, the template is split on
the alternation regex, and the split is walked into
`(templateChunks, tokenList)`. -/
def compileTemplate (template : String) (customTokens : CustomTokens) :
    List (Option String) × List String :=
  let tokens := standardTokens ++ customTokens.map (fun p => p.1)
  walkSplit (splitTemplate tokens template)

/-- The `switch (token)` of the compiled formatter.  `res.statusCode` is a
number and `res.getHeader(...)` may be `undefined`; both are stringified by
the final `chunks.join('')` (`undefined` joins as the empty string).  The
`default` branch is `customTokens[token](req, res, duration, finished)`;
when the map has no such key this invokes `undefined` and throws
(`Except.error`). -/
def resolveToken (customTokens : CustomTokens) (req : Request) (res : Response)
    (duration : String) (finished : Bool) (token : String) : Except Unit String :=
  if token = "status-code" then .ok (toString res.statusCode)
  else if token = "duration" then .ok duration
  else if token = "proto" then .ok (if req.encrypted then "https" else "http")
  else if token = "method" then .ok req.method
  else if token = "path" then .ok req.pathname
  else if token = "content-type" then .ok ((getHeader res "content-type").getD "")
  else if token = "content-length" then .ok ((getHeader res "content-length").getD "")
  else
    match customTokens.find? (fun p => p.1 == token) with
    | some p => .ok (p.2 req res duration finished)
    | none => .error ()

/-- The format-time loop of the compiled formatter: for each index of
`templateChunks`, append the chunk (an `undefined` chunk joins as `""`),
then, if `tokenList[i]` is truthy, resolve it and append the value.  A throw
inside resolution propagates out of the formatter. -/
def formatChunks (customTokens : CustomTokens) (req : Request) (res : Response)
    (duration : String) (finished : Bool) :
    List (Option String) → List String → Except Unit String
  | [], _ => .ok ""
  | chunk :: restChunks, tokens =>
    let lit := chunk.getD ""
    let tok := tokens.headD ""
    if tok = "" then
      (formatChunks customTokens req res duration finished restChunks tokens.tail).map
        (fun r => lit ++ r)
    else
      match resolveToken customTokens req res duration finished tok with
      | .ok v =>
        (formatChunks customTokens req res duration finished restChunks tokens.tail).map
          (fun r => lit ++ v ++ r)
      | .error e => .error e

/-- `compileTemplate(template, customTokens)(req, res, duration, finished)`:
compile the template, then run the returned closure. -/
def compiledFormat (template : String) (customTokens : CustomTokens)
    (req : Request) (res : Response) (duration : String) (finished : Bool) :
    Except Unit String :=
  let p := compileTemplate template customTokens
  formatChunks customTokens req res duration finished p.1 p.2

/-- `const nanosecondsPerMillisecond = 10e5` (= 1,000,000). -/
def nanosecondsPerMillisecond : Nat := 1000000

/-- `const oneMinute = 60`. -/
def oneMinute : Nat := 60

/-- `const oneHour = 60 * 60`. -/
def oneHour : Nat := 60 * 60

/-- Splice a decimal point into a digit string after `k` digits. -/
def insertDot (m : String) (k : Nat) : String :=
  String.mk (m.data.take k ++ '.' :: m.data.drop k)

/-- `(nanoseconds / nanosecondsPerMillisecond).toPrecision(6)` from the
source: ECMAScript `Number.prototype.toPrecision` with 6 significant digits,
applied to the exact rational `ns / 10^6` (the IEEE-754 double rounding of
the division is abstracted to exact arithmetic; toPrecision ties round to
the larger digit string, i.e. half-up).  For a value with at most 6 integer
digits the result is the digits padded to 6 significant digits; rounding
that carries into a seventh digit bumps the exponent. -/
def msRender (ns : Nat) : String :=
  if ns = 0 then "0.00000"
  else
    let L := (toString ns).length
    if L ≤ 6 then
      "0." ++ String.mk (List.replicate (6 - L) '0') ++ toString (ns * 10 ^ (6 - L))
    else
      let b := 10 ^ (L - 6)
      let n := (ns + b / 2) / b
      if n = 1000000 then insertDot "100000" (L - 5)
      else insertDot (toString n) (L - 6)

/-- `formatDuration([wholeSeconds, nanoseconds])` from the source: tiered
rendering of a `process.hrtime()` pair, first match wins.  `Math.floor` on a
quotient of non-negative integers is `Nat` division. -/
def formatDuration : Nat × Nat → String
  | (wholeSeconds, nanoseconds) =>
    let milliseconds := msRender nanoseconds ++ "ms"
    if wholeSeconds < 1 then milliseconds
    else if wholeSeconds < oneMinute then
      toString wholeSeconds ++ "sec " ++ milliseconds
    else if wholeSeconds < oneHour then
      toString (wholeSeconds / oneMinute) ++ "min" ++
        toString (wholeSeconds % oneMinute) ++ "sec" ++ milliseconds
    else
      toString (wholeSeconds / oneHour) ++ "hr" ++
        toString (wholeSeconds % oneHour / oneMinute) ++ "min" ++
        toString (wholeSeconds % oneHour % oneMinute) ++ "sec" ++ milliseconds

/-- The `config.format` field: a template string, a prebuilt formatter
function, or absent at runtime (the TypeScript interface declares `format`
as required, so `absent` models an untyped caller omitting it). -/
inductive FormatField where
  | tmpl (s : String)
  | fn (f : Resolver)
  | absent

/-- The `format` value the middleware closes over:
`typeof config.format === 'string' ? compileTemplate(...) : config.format`,
then applied at log time.  Applying an absent field (`undefined` is not a
function) throws. -/
def applyFormat (format : FormatField) (customTokens : CustomTokens)
    (req : Request) (res : Response) (duration : String) (finished : Bool) :
    Except Unit String :=
  match format with
  | .tmpl s => compiledFormat s customTokens req res duration finished
  | .fn f => .ok (f req res duration finished)
  | .absent => .error ()

/-- A JavaScript argument value passed to the sink `config.log`. -/
inductive LogArg where
  | str (s : String)

/-- One recorded invocation of the sink: the argument list the call site
passed (`config.log(message)` passes exactly one string), plus, as trace
instrumentation, which terminal path triggered it (`finished`). -/
structure SinkCall where
  args : List LogArg
  finished : Bool

/-- The per-request lifecycle record: whether each terminal listener is
still attached, and the sink invocations so far. -/
structure LoggerState where
  finishAttached : Bool
  closeAttached : Bool
  sinkCalls : List SinkCall

/-- The state right after the middleware runs: both listeners attached
(`res.on('finish', onFinish); res.on('close', onClose)`), no sink calls. -/
def initState : LoggerState :=
  { finishAttached := true, closeAttached := true, sinkCalls := [] }

/-- The `logRequest(finished)` closure: format the duration, invoke the
formatter (a throw aborts before any state change), then detach both
listeners and call `config.log(message)`. -/
def logRequest (format : FormatField) (customTokens : CustomTokens)
    (req : Request) (res : Response) (st : LoggerState) (finished : Bool)
    (d : Nat × Nat) : Except Unit LoggerState :=
  let duration := formatDuration d
  match applyFormat format customTokens req res duration finished with
  | .error e => .error e
  | .ok message =>
    .ok { finishAttached := false, closeAttached := false,
          sinkCalls := st.sinkCalls ++ [{ args := [LogArg.str message], finished := finished }] }

/-- A terminal event on the response. -/
inductive Ev where
  | finish
  | close

/-- The `finished` flag the handler for an event passes to `logRequest`. -/
def Ev.flag : Ev → Bool
  | .finish => true
  | .close => false

/-- Delivery of one emitted event: the handler runs only while its listener
is attached (`removeListener` makes later emissions no-ops). -/
def fireEvent (format : FormatField) (customTokens : CustomTokens)
    (req : Request) (res : Response) (st : LoggerState) (e : Ev)
    (d : Nat × Nat) : Except Unit LoggerState :=
  match e with
  | .finish =>
    if st.finishAttached then logRequest format customTokens req res st true d else .ok st
  | .close =>
    if st.closeAttached then logRequest format customTokens req res st false d else .ok st

/-- A whole emission history for one request: each event carries the
`process.hrtime(startTime)` reading at which it fires.  A throw escaping a
handler leaves the logger state as it was. -/
def runEvents (format : FormatField) (customTokens : CustomTokens)
    (req : Request) (res : Response) (st : LoggerState) :
    List (Ev × Nat × Nat) → LoggerState
  | [] => st
  | (e, d) :: rest =>
    match fireEvent format customTokens req res st e d with
    | .ok st2 => runEvents format customTokens req res st2 rest
    | .error _ => runEvents format customTokens req res st rest

/-- Sample request used to evaluate concrete scenarios. -/
def req0 : Request :=
  { method := "GET", pathname := "/health", encrypted := false }

/-- Sample response used to evaluate concrete scenarios. -/
def res0 : Response :=
  { statusCode := 200, headers := [] }

/-- Shape invariant of a split result: a final literal alone, or a literal,
a `:name` marker, and a non-empty captured name followed by another split
result.  Every output of `splitTemplate` has this shape when all registered
names are non-empty. -/
def chunked : List String → Prop
  | [_] => True
  | _ :: _ :: c :: rest => c ≠ "" ∧ chunked rest
  | _ => False

theorem splitGo_chunked (names : List String) (hn : ∀ n ∈ names, n ≠ "") :
    ∀ (fuel : Nat) (cs acc : List Char), chunked (splitGo names fuel cs acc) := by
  intro fuel
  induction fuel with
  | zero =>
    intro cs acc
    simp [splitGo, chunked]
  | succ k ih =>
    intro cs acc
    cases cs with
    | nil => simp [splitGo, chunked]
    | cons c rest =>
      cases hf : findTok names (c :: rest) with
      | none =>
        simpa [splitGo, hf] using ih rest (c :: acc)
      | some n =>
        have hmem : n ∈ names := by
          simp only [findTok] at hf
          split at hf
          · exact List.mem_of_find?_eq_some hf
          · exact absurd hf (by simp)
        simp only [splitGo, hf]
        exact ⟨hn n hmem, ih _ _⟩

theorem walkSplit_len :
    ∀ l : List String, chunked l → (walkSplit l).1.length = (walkSplit l).2.length + 1
  | [], h => nomatch h
  | [_], _ => by simp [walkSplit]
  | [_, _], h => nomatch h
  | _ :: _ :: c :: rest, h => by
    obtain ⟨hc, hrest⟩ := h
    have ih := walkSplit_len rest hrest
    simp only [walkSplit, if_neg hc, List.length_cons]
    omega

theorem fireEvent_detached (format : FormatField) (customTokens : CustomTokens)
    (req : Request) (res : Response) (st : LoggerState)
    (hf : st.finishAttached = false) (hc : st.closeAttached = false)
    (e : Ev) (d : Nat × Nat) :
    fireEvent format customTokens req res st e d = Except.ok st := by
  cases e <;> simp [fireEvent, hf, hc]

theorem runEvents_detached (format : FormatField) (customTokens : CustomTokens)
    (req : Request) (res : Response) (st : LoggerState)
    (hf : st.finishAttached = false) (hc : st.closeAttached = false)
    (evs : List (Ev × Nat × Nat)) :
    runEvents format customTokens req res st evs = st := by
  induction evs with
  | nil => rfl
  | cons ev rest ih =>
    obtain ⟨e, d⟩ := ev
    simp [runEvents, fireEvent_detached format customTokens req res st hf hc e d, ih]

/-- After the first event of a history, when the formatter succeeds: both
listeners are detached and exactly one sink call was made, with the single
message argument and the flag of that first event; the remaining events are
no-ops. -/
theorem runEvents_first_event (format : FormatField) (customTokens : CustomTokens)
    (req : Request) (res : Response)
    (h : ∀ dstr fin, ∃ m, applyFormat format customTokens req res dstr fin = Except.ok m)
    (e : Ev) (d : Nat × Nat) (rest : List (Ev × Nat × Nat)) :
    ∃ m, applyFormat format customTokens req res (formatDuration d) e.flag = Except.ok m ∧
      runEvents format customTokens req res initState ((e, d) :: rest) =
        { finishAttached := false, closeAttached := false,
          sinkCalls := [{ args := [LogArg.str m], finished := e.flag }] } := by
  obtain ⟨m, hm⟩ := h (formatDuration d) e.flag
  refine ⟨m, hm, ?_⟩
  have h1 : fireEvent format customTokens req res initState e d =
      Except.ok { finishAttached := false, closeAttached := false,
                  sinkCalls := [{ args := [LogArg.str m], finished := e.flag }] } := by
    cases e <;>
      simp only [Ev.flag] at hm ⊢ <;>
      simp [fireEvent, initState, logRequest, hm]
  simp only [runEvents, h1]
  exact runEvents_detached format customTokens req res _ rfl rfl rest

theorem resolveToken_std_fin_indep (customTokens : CustomTokens) (req : Request)
    (res : Response) (dur : String) (tok : String) (h : tok ∈ standardTokens) :
    resolveToken customTokens req res dur true tok =
      resolveToken customTokens req res dur false tok := by
  simp only [standardTokens, List.mem_cons, List.not_mem_nil, or_false] at h
  rcases h with rfl | rfl | rfl | rfl | rfl | rfl | rfl <;> rfl

theorem formatChunks_fin_indep (customTokens : CustomTokens) (req : Request)
    (res : Response) (dur : String) :
    ∀ (tc : List (Option String)) (tl : List String),
      (∀ tok ∈ tl, tok ∈ standardTokens) →
      formatChunks customTokens req res dur true tc tl =
        formatChunks customTokens req res dur false tc tl
  | [], _, _ => rfl
  | c :: cs, tl, h => by
    cases tl with
    | nil =>
      have ih := formatChunks_fin_indep customTokens req res dur cs [] (by simp)
      simp [formatChunks, ih]
    | cons t ts =>
      have htail : ∀ tok ∈ ts, tok ∈ standardTokens := by
        intro tok ht
        exact h tok (List.mem_cons_of_mem _ ht)
      have ih := formatChunks_fin_indep customTokens req res dur cs ts htail
      by_cases h0 : t = ""
      · simp [formatChunks, h0, ih]
      · have hres := resolveToken_std_fin_indep customTokens req res dur t
          (h t (List.mem_cons_self _ _))
        simp [formatChunks, h0, ih, hres]

/-- C1: claimed end-to-end output of the template
`":method :path - :status-code in :duration"` is
`"GET /health - 200 in 3.50000ms"`.  The code disagrees: the compile loop
indexes `initialSplit[i += 2]`, so every literal chunk of the template is
dropped and the captured token names are stored in `templateChunks`
instead; the formatter therefore emits the token names glued to the
resolved values.  This theorem evaluates the code at the claimed input. -/
theorem compiledFormat_end_to_end_eval :
    compiledFormat ":method :path - :status-code in :duration" [] req0 res0 "3.50000ms" true =
      Except.ok "methodGETpath/healthstatus-code200duration3.50000ms" := by
  rfl

/-- C2: claimed that a template with no recognized tokens formats to itself.
The code disagrees: for a token-free template the split is the single
literal `[template]`, and the compile loop pushes only `initialSplit[2]`
(out of range, `undefined`), so the formatter joins to the empty string.
This theorem evaluates the code at the failing input `"hello"`. -/
theorem compiledFormat_no_token_eval :
    compiledFormat "hello" [] req0 res0 "3.50000ms" true = Except.ok "" := by
  rfl

/-- C7: claimed that an unrecognized `:name` sequence appears verbatim in
the output.  It never triggers token resolution (the split pattern only
matches registered names), but it lands in a literal chunk, and the compile
loop drops all literal chunks, so it is absent from the output: for
`":foo-:method"` the code emits `"methodGET"`, with no trace of `":foo-"`.
This theorem evaluates the code at that failing input. -/
theorem compiledFormat_unrecognized_token_eval :
    compiledFormat ":foo-:method" [] req0 res0 "3.50000ms" true = Except.ok "methodGET" := by
  rfl

/-- C5: `formatDuration` applies first-match tiering — under one second only
the millisecond string; under one minute `"<sec>sec <ms>ms"` (with the
space); under one hour `"<min>min<sec>sec<ms>ms"`; otherwise
`"<hr>hr<min>min<sec>sec<ms>ms"` — where the millisecond component is
`nanoseconds / 1,000,000` to 6 significant digits, and the four boundary
examples of the spec hold exactly. -/
theorem formatDuration_tiering (ws ns : Nat) (hns : ns ≤ 999999999) :
    (ws < 1 → formatDuration (ws, ns) = msRender ns ++ "ms")
    ∧ (1 ≤ ws → ws < 60 →
        formatDuration (ws, ns) = toString ws ++ "sec " ++ msRender ns ++ "ms")
    ∧ (60 ≤ ws → ws < 3600 →
        formatDuration (ws, ns) =
          toString (ws / 60) ++ "min" ++ toString (ws % 60) ++ "sec" ++ msRender ns ++ "ms")
    ∧ (3600 ≤ ws →
        formatDuration (ws, ns) =
          toString (ws / 3600) ++ "hr" ++ toString (ws % 3600 / 60) ++ "min" ++
            toString (ws % 3600 % 60) ++ "sec" ++ msRender ns ++ "ms")
    ∧ formatDuration (0, 500000000) = "500.000ms"
    ∧ formatDuration (1, 0) = "1sec 0.00000ms"
    ∧ formatDuration (61, 0) = "1min1sec0.00000ms"
    ∧ formatDuration (3661, 0) = "1hr1min1sec0.00000ms" := by
  refine ⟨?_, ?_, ?_, ?_, by rfl, by rfl, by rfl, by rfl⟩
  · intro h1
    simp [formatDuration, h1]
  · intro h1 h60
    have hn1 : ¬ ws < 1 := by omega
    simp [formatDuration, oneMinute, hn1, h60, String.append_assoc]
  · intro h60 h3600
    have hn1 : ¬ ws < 1 := by omega
    have hn60 : ¬ ws < 60 := by omega
    simp [formatDuration, oneMinute, oneHour, hn1, hn60, h3600, String.append_assoc]
  · intro h3600
    have hn1 : ¬ ws < 1 := by omega
    have hn60 : ¬ ws < 60 := by omega
    have hn3600 : ¬ ws < 3600 := by omega
    simp [formatDuration, oneMinute, oneHour, hn1, hn60, hn3600, String.append_assoc]

/-- C5 witness: the tiering theorem applied at `(61, 0)`. -/
theorem formatDuration_tiering_witness :
    formatDuration (61, 0) = "1min1sec0.00000ms" :=
  (formatDuration_tiering 61 0 (by decide)).2.2.1 (by decide) (by decide)

/-- C9: for every template and custom-token map (with the spec's input
constraint that custom names are non-empty), the compiled template has
exactly one more chunk in `templateChunks` than entries in `tokenList`. -/
theorem compileTemplate_len_invariant (template : String) (customTokens : CustomTokens)
    (h : ∀ p ∈ customTokens, p.1 ≠ "") :
    (compileTemplate template customTokens).1.length =
      (compileTemplate template customTokens).2.length + 1 := by
  apply walkSplit_len
  apply splitGo_chunked
  intro n hn
  rcases List.mem_append.mp hn with hstd | hcust
  · simp only [standardTokens, List.mem_cons, List.not_mem_nil, or_false] at hstd
    rcases hstd with rfl | rfl | rfl | rfl | rfl | rfl | rfl <;> decide
  · obtain ⟨p, hp, rfl⟩ := List.mem_map.mp hcust
    exact h p hp

/-- C9 witness: the invariant at the template `":method x"` with no custom
tokens. -/
theorem compileTemplate_len_invariant_witness :
    (compileTemplate ":method x" []).1.length = (compileTemplate ":method x" []).2.length + 1 :=
  compileTemplate_len_invariant ":method x" [] (by simp)

/-- C3 counterexample: the claim says the sink receives five arguments
(message, request, response, durationString, finishedFlag).  In a concrete
run (prebuilt formatter, one finish event) the single sink invocation
receives one argument, not five: the call site is `config.log(message)`. -/
theorem sink_five_args_cex :
    ¬ (∀ c ∈ (runEvents (FormatField.fn (fun _ _ d _ => d)) [] req0 res0 initState
          [(Ev.finish, (0, 0))]).sinkCalls, c.args.length = 5) := by
  decide

/-- C3 (amended): whenever a terminal event fires and the formatter
succeeds, the sink is called exactly once per request, and each call passes
a single argument, the message string — `config.log(message)`. -/
theorem sink_called_once_single_arg (format : FormatField) (customTokens : CustomTokens)
    (req : Request) (res : Response)
    (h : ∀ dstr fin, ∃ m, applyFormat format customTokens req res dstr fin = Except.ok m)
    (evs : List (Ev × Nat × Nat)) (hne : evs ≠ []) :
    ((runEvents format customTokens req res initState evs).sinkCalls.length = 1)
    ∧ (∀ c ∈ (runEvents format customTokens req res initState evs).sinkCalls,
        ∃ m, c.args = [LogArg.str m]) := by
  cases evs with
  | nil => exact absurd rfl hne
  | cons ev rest =>
    obtain ⟨e, d⟩ := ev
    obtain ⟨m, _, hrun⟩ := runEvents_first_event format customTokens req res h e d rest
    rw [hrun]
    refine ⟨rfl, ?_⟩
    intro c hc
    simp only [List.mem_singleton] at hc
    exact ⟨m, by rw [hc]⟩

/-- C3 witness: the amended theorem at a prebuilt formatter and a single
finish event. -/
theorem sink_called_once_single_arg_witness :
    ((runEvents (FormatField.fn (fun _ _ d _ => d)) [] req0 res0 initState
        [(Ev.finish, (0, 0))]).sinkCalls.length = 1)
    ∧ (∀ c ∈ (runEvents (FormatField.fn (fun _ _ d _ => d)) [] req0 res0 initState
        [(Ev.finish, (0, 0))]).sinkCalls, ∃ m, c.args = [LogArg.str m]) :=
  sink_called_once_single_arg (FormatField.fn (fun _ _ d _ => d)) [] req0 res0
    (fun dstr fin => ⟨dstr, rfl⟩) [(Ev.finish, (0, 0))] (by simp)

/-- C4: whichever terminal event fires first detaches both listeners, so
(when the formatter succeeds) the sink fires at most once over any event
history; and when close fires first, exactly once with the unfinished flag,
with no second call from a later finish event. -/
theorem close_first_logs_once_unfinished (format : FormatField) (customTokens : CustomTokens)
    (req : Request) (res : Response)
    (h : ∀ dstr fin, ∃ m, applyFormat format customTokens req res dstr fin = Except.ok m) :
    (∀ evs, (runEvents format customTokens req res initState evs).sinkCalls.length ≤ 1)
    ∧ (∀ (d0 : Nat × Nat) (rest : List (Ev × Nat × Nat)),
        ((runEvents format customTokens req res initState
            ((Ev.close, d0) :: rest)).sinkCalls.length = 1)
        ∧ (∀ c ∈ (runEvents format customTokens req res initState
            ((Ev.close, d0) :: rest)).sinkCalls, c.finished = false)) := by
  constructor
  · intro evs
    cases evs with
    | nil => simp [runEvents, initState]
    | cons ev rest =>
      obtain ⟨e, d⟩ := ev
      obtain ⟨m, _, hrun⟩ := runEvents_first_event format customTokens req res h e d rest
      rw [hrun]
      simp
  · intro d0 rest
    obtain ⟨m, _, hrun⟩ := runEvents_first_event format customTokens req res h Ev.close d0 rest
    rw [hrun]
    refine ⟨rfl, ?_⟩
    intro c hc
    simp only [List.mem_singleton] at hc
    rw [hc]
    simp [Ev.flag]

/-- C4 witness: the theorem at a prebuilt formatter, close then finish. -/
theorem close_first_logs_once_unfinished_witness :
    ((runEvents (FormatField.fn (fun _ _ _ _ => "m")) [] req0 res0 initState
        [(Ev.close, (0, 0)), (Ev.finish, (0, 0))]).sinkCalls.length = 1)
    ∧ (∀ c ∈ (runEvents (FormatField.fn (fun _ _ _ _ => "m")) [] req0 res0 initState
        [(Ev.close, (0, 0)), (Ev.finish, (0, 0))]).sinkCalls, c.finished = false) :=
  (close_first_logs_once_unfinished (FormatField.fn (fun _ _ _ _ => "m")) [] req0 res0
    (fun _ _ => ⟨"m", rfl⟩)).2 (0, 0) [(Ev.finish, (0, 0))]

/-- C6 counterexample: the claim says that with `format` absent the sink
still fires once per request with a null message.  In a concrete run with
`format` absent and one finish event, the sink is never called: invoking
the absent formatter throws before `config.log`. -/
theorem absent_format_no_sink_cex :
    ¬ ((runEvents FormatField.absent [] req0 res0 initState
          [(Ev.finish, (0, 0))]).sinkCalls.length = 1) := by
  decide

/-- C6 (amended): `RequestLoggerConfig` declares `format` as required; if it
is absent at runtime, `format(req, res, duration, finished)` throws before
the listeners are detached or the sink is called, so the logger state never
changes and the sink is never invoked. -/
theorem absent_format_state_unchanged (customTokens : CustomTokens) (req : Request)
    (res : Response) (st : LoggerState) (evs : List (Ev × Nat × Nat)) :
    runEvents FormatField.absent customTokens req res st evs = st := by
  induction evs generalizing st with
  | nil => rfl
  | cons ev rest ih =>
    obtain ⟨e, d⟩ := ev
    cases e <;>
      by_cases hA : st.finishAttached <;>
      by_cases hB : st.closeAttached <;>
      simp [runEvents, fireEvent, logRequest, applyFormat, hA, hB, ih]

/-- C8: if the formatter reaches a token that is not a standard token and
has no entry in the custom-token map available at format time, the
invocation throws (the error propagates; no empty text is substituted). -/
theorem formatChunks_missing_resolver (customTokens : CustomTokens) (req : Request)
    (res : Response) (dur : String) (fin : Bool) (tc : List (Option String))
    (tl : List String) (i : Nat) (tok : String)
    (hi : i < tc.length) (htok : tl[i]? = some tok) (hne : tok ≠ "")
    (hstd : tok ∉ standardTokens)
    (hmiss : customTokens.find? (fun p => p.1 == tok) = none) :
    formatChunks customTokens req res dur fin tc tl = Except.error () := by
  have hstd7 : ¬ tok = "status-code" ∧ ¬ tok = "duration" ∧ ¬ tok = "proto"
      ∧ ¬ tok = "method" ∧ ¬ tok = "path" ∧ ¬ tok = "content-type"
      ∧ ¬ tok = "content-length" := by
    simp only [standardTokens, List.mem_cons, List.not_mem_nil, or_false, not_or] at hstd
    exact hstd
  obtain ⟨n1, n2, n3, n4, n5, n6, n7⟩ := hstd7
  have hres : resolveToken customTokens req res dur fin tok = Except.error () := by
    simp [resolveToken, n1, n2, n3, n4, n5, n6, n7, hmiss]
  clear hstd hmiss
  induction tc generalizing tl i with
  | nil => simp at hi
  | cons c cs ih =>
    cases i with
    | zero =>
      cases tl with
      | nil => simp at htok
      | cons t ts =>
        have ht : t = tok := by simpa using htok
        subst ht
        simp [formatChunks, hne, hres]
    | succ j =>
      cases tl with
      | nil => simp at htok
      | cons t ts =>
        have htok2 : ts[j]? = some tok := by simpa using htok
        have hi2 : j < cs.length := by
          simp only [List.length_cons] at hi
          omega
        have ihj := ih ts j hi2 htok2
        by_cases h0 : t = ""
        · simp [formatChunks, h0, ihj, Except.map]
        · cases hres2 : resolveToken customTokens req res dur fin t with
          | error e => simp [formatChunks, h0, hres2]
          | ok v => simp [formatChunks, h0, hres2, ihj, Except.map]

/-- C8 witness: the compiled chunks of the template `":user"` (compiled with
a custom token `user`) formatted against an empty map: the formatter
throws. -/
theorem formatChunks_missing_resolver_witness :
    formatChunks [] req0 res0 "d" true [some "user", none] ["user"] = Except.error () :=
  formatChunks_missing_resolver [] req0 res0 "d" true [some "user", none] ["user"] 0 "user"
    (by decide) (by decide) (by decide) (by decide) rfl

/-- C10: for a template whose recognized placeholders are all standard
tokens, the compiled formatter's output does not depend on the finished
flag: the flag reaches the output only through custom resolvers. -/
theorem compiledFormat_finished_noninterference (template : String)
    (customTokens : CustomTokens) (req : Request) (res : Response) (dur : String)
    (h : ∀ tok ∈ (compileTemplate template customTokens).2, tok ∈ standardTokens) :
    compiledFormat template customTokens req res dur true =
      compiledFormat template customTokens req res dur false :=
  formatChunks_fin_indep customTokens req res dur
    (compileTemplate template customTokens).1 (compileTemplate template customTokens).2 h

/-- C10 witness: the theorem at the template `":method x"` with no custom
tokens. -/
theorem compiledFormat_finished_noninterference_witness :
    compiledFormat ":method x" [] req0 res0 "d" true =
      compiledFormat ":method x" [] req0 res0 "d" false :=
  compiledFormat_finished_noninterference ":method x" [] req0 res0 "d" (by decide)
